import Mathlib

/-!
Shallow embedding of `onboard/backend/src/lib.rs` (Devcade onboard backend):
environment-variable helpers, the `DevcadeGame` record with its serde wire
format, and the named-pipe construction and opening logic (`mkfifo`,
`open_read_pipe`, `open_write_pipe`).

The filesystem is modelled as an association list from path strings to
entries; OS calls whose outcome depends on the environment (`create_dir_all`
failure, the return code of `libc::mkfifo`, racing processes, open failures)
are parametrised by an `OsOracle` record so each theorem quantifies over all
possible OS behaviours.  Rust control flow that can `panic!` is modelled by
the `ROut` outcome type.
-/

namespace Devcade

/-- Outcome of a Rust computation: normal return, a returned `Err` value
carrying its message, or a `panic!` that terminates the process. -/
inductive ROut (α : Type) where
  | ok (a : α)
  | err (msg : String)
  | panic
deriving DecidableEq, Repr

/-- A filesystem entry: a FIFO special file (with its creation mode),
a regular file, or a directory. -/
inductive FsEntry where
  | fifo (mode : Nat)
  | file
  | dir
deriving DecidableEq, Repr

/-- The filesystem, as an association list from paths to entries. -/
abbrev Fs := List (String × FsEntry)

/-- Lookup of the entry at a path. -/
def lookupFs : Fs → String → Option FsEntry
  | [], _ => none
  | (q, e) :: rest, p => if q = p then some e else lookupFs rest p

/-- `std::path::Path::exists`.  The filesystem root `/` always exists. -/
def existsFs (fs : Fs) (p : String) : Bool :=
  p = "/" || (lookupFs fs p).isSome

/-- Creating an entry at a path. -/
def insertFs (fs : Fs) (p : String) (e : FsEntry) : Fs := (p, e) :: fs

/-- Whether an entry is a FIFO special file. -/
def isFifo : FsEntry → Bool
  | .fifo _ => true
  | _ => false

/-- Number of FIFO special files the filesystem holds at a path. -/
def countFifoAt (fs : Fs) (p : String) : Nat :=
  (fs.filter (fun q => q.1 = p && isFifo q.2)).length

/-- Drop trailing `/` characters, as Rust path-component parsing does. -/
def dropTrailingSlashes (p : String) : String :=
  String.mk ((p.data.reverse.dropWhile (fun c => c = '/')).reverse)

/-- Index of the last `/` in a string, if any. -/
def lastSlashIdx (p : String) : Option Nat :=
  match p.data.reverse.findIdx? (fun c => c = '/') with
  | none => none
  | some r => some (p.data.length - 1 - r)

/-- `std::path::Path::parent` on Unix paths: `none` for the empty path and
for the root, otherwise the path with its final component removed
(`"a"` ↦ `""`, `"/a"` ↦ `"/"`, `"a/b"` ↦ `"a"`). -/
def rustParent (p : String) : Option String :=
  let q := dropTrailingSlashes p
  if q = "" then none
  else
    match lastSlashIdx q with
    | none => some ""
    | some i =>
      let c := dropTrailingSlashes (String.mk (q.data.take i))
      if c = "" then some "/" else some c

/-- A path together with all its ancestors under `rustParent`
(fuel-bounded; the fuel `|p| + 1` always suffices since a parent is
strictly shorter). -/
def selfAndAncestors : Nat → String → List String
  | 0, _ => []
  | n + 1, p =>
    p :: (match rustParent p with
          | none => []
          | some q => selfAndAncestors n q)

/-- The chain of directories `std::fs::create_dir_all` ensures when asked
for `d`: `d` and every ancestor, the empty path excluded (`create_dir_all`
on the empty path is a no-op). -/
def dirChain (d : String) : List String :=
  (selfAndAncestors (d.data.length + 1) d).filter (fun a => a ≠ "")

/-- Create directory entries at every listed path that is still absent. -/
def ensureDirs (fs : Fs) : List String → Fs
  | [] => fs
  | a :: rest => ensureDirs (if existsFs fs a then fs else insertFs fs a .dir) rest

/-- `std::fs::create_dir_all`: recursively create the directory and all
missing ancestors; a no-op on the empty path. -/
def create_dir_all (fs : Fs) (d : String) : Fs :=
  ensureDirs fs (dirChain d)

/-- Outcomes of the OS calls the library makes, supplied by the
environment: whether `create_dir_all` fails, the return code of
`libc::mkfifo`, the entry a racing process leaves at the path when the
`libc::mkfifo` call fails, and whether the two pipe-open calls fail. -/
structure OsOracle where
  mkdirFails : Bool
  mkfifoCode : Int
  raceEntry : Option FsEntry
  openReceiverFails : Bool
  openSenderFails : Bool
deriving DecidableEq, Repr

/-- An oracle on which every OS call succeeds. -/
def osOk : OsOracle :=
  { mkdirFails := false, mkfifoCode := 0, raceEntry := none,
    openReceiverFails := false, openSenderFails := false }

/-- An oracle on which the `libc::mkfifo` call fails with code 17 while a
racing process creates the FIFO at the path. -/
def osRace : OsOracle :=
  { osOk with mkfifoCode := 17, raceEntry := some (.fifo 0o644) }

/-- An oracle on which the `libc::mkfifo` call fails with code 1 and no
racing process interferes. -/
def osFail : OsOracle := { osOk with mkfifoCode := 1 }

/-- `CString::new` fails exactly when the path holds an interior NUL. -/
def hasNul (p : String) : Bool :=
  p.data.any (fun c => c = Char.ofNat 0)

/-- The `CString` conversion followed by the raw `libc::mkfifo(path, 0o644)`
call of `mkfifo`'s tail: on return code `0` a FIFO with mode `0o644`
appears at the path; on a non-zero code the error carries that code and a
racing process may have left an entry at the path. -/
def mkfifoSyscall (os : OsOracle) (fs : Fs) (path : String) : ROut Unit × Fs :=
  if hasNul path then (.err "CString nul error", fs)
  else if os.mkfifoCode = 0 then (.ok (), insertFs fs path (.fifo 0o644))
  else
    (.err ("mkfifo exited with code " ++ toString os.mkfifoCode),
     match os.raceEntry with
     | some e => insertFs fs path e
     | none => fs)

/-- `fn mkfifo(path: &str) -> Result<(), Error>` from `lib.rs`: succeed at
once if the path exists; `unwrap` the parent (panicking when there is
none); `create_dir_all` the parent if absent; then the raw FIFO-creation
call. -/
def mkfifo (os : OsOracle) (fs : Fs) (path : String) : ROut Unit × Fs :=
  if existsFs fs path then (.ok (), fs)
  else
    match rustParent path with
    | none => (.panic, fs)
    | some par =>
      if existsFs fs par then mkfifoSyscall os fs path
      else if os.mkdirFails then (.err "create_dir_all error", fs)
      else mkfifoSyscall os (create_dir_all fs par) path

/-- The read half of a pipe, as returned by `open_receiver`: the path it
was opened on and whether the descriptor was opened in read-write mode. -/
structure Receiver where
  path : String
  readWrite : Bool
deriving DecidableEq, Repr

/-- The write half of a pipe, as returned by `open_sender`. -/
structure Sender where
  path : String
deriving DecidableEq, Repr

/-- `tokio::net::unix::pipe::OpenOptions`: the only option the library
touches is `read_write`. -/
structure OpenOptions where
  rw : Bool
deriving DecidableEq, Repr

/-- `OpenOptions::new()`, whose `read_write` flag defaults to off. -/
def OpenOptions.new : OpenOptions := ⟨false⟩

/-- `OpenOptions::read_write(b)`. -/
def OpenOptions.read_write (_o : OpenOptions) (b : Bool) : OpenOptions := ⟨b⟩

/-- `OpenOptions::open_receiver(path)`: fails when the oracle says the
open fails, otherwise yields a receiver recording the options' mode. -/
def OpenOptions.open_receiver (o : OpenOptions) (os : OsOracle) (path : String) :
    ROut Receiver :=
  if os.openReceiverFails then .err "open_receiver error"
  else .ok ⟨path, o.rw⟩

/-- `OpenOptions::open_sender(path)`. -/
def OpenOptions.open_sender (_o : OpenOptions) (os : OsOracle) (path : String) :
    ROut Sender :=
  if os.openSenderFails then .err "open_sender error"
  else .ok ⟨path⟩

/-- `pub fn open_read_pipe(path: &str) -> Result<Receiver, Error>`: create
the FIFO if the path is absent, panicking (after logging) when creation
fails; then open the receiver with `read_write(true)`. -/
def open_read_pipe (os : OsOracle) (fs : Fs) (path : String) :
    ROut Receiver × Fs :=
  if existsFs fs path then
    (((OpenOptions.new).read_write true).open_receiver os path, fs)
  else
    match mkfifo os fs path with
    | (.ok _, fs1) => (((OpenOptions.new).read_write true).open_receiver os path, fs1)
    | (.err _, fs1) => (.panic, fs1)
    | (.panic, fs1) => (.panic, fs1)

/-- `pub fn open_write_pipe(path: &str) -> Result<Sender, Error>`: create
the FIFO if the path is absent, panicking (after logging) when creation
fails; then open the sender with default options. -/
def open_write_pipe (os : OsOracle) (fs : Fs) (path : String) :
    ROut Sender × Fs :=
  if existsFs fs path then
    ((OpenOptions.new).open_sender os path, fs)
  else
    match mkfifo os fs path with
    | (.ok _, fs1) => ((OpenOptions.new).open_sender os path, fs1)
    | (.err _, fs1) => (.panic, fs1)
    | (.panic, fs1) => (.panic, fs1)

/-- Log severities used by the library. -/
inductive Level where
  | Error
  | Warn
  | Info
deriving DecidableEq, Repr

/-- The `Display` text of `std::env::VarError::NotPresent`. -/
def notPresentMsg : String := "environment variable not found"

namespace env

/-- `pub fn devcade_path() -> String` from the `env` module: return the
`DEVCADE_PATH` value when set; otherwise log a warning, set the variable
to `/tmp/devcade` and return that fallback.  Takes the current value of
the variable and returns the result, the variable's new value, and the
log lines emitted. -/
def devcade_path (var : Option String) :
    String × Option String × List (Level × String) :=
  match var with
  | some p => (p, some p, [])
  | none =>
    ("/tmp/devcade", some "/tmp/devcade",
     [(.Warn, "Error getting DEVCADE_PATH falling back to '/tmp/devcade': "
                ++ notPresentMsg)])

/-- `pub fn api_url() -> String` from the `env` module: return the
`DEVCADE_API_URL` value when set; otherwise log an error and `panic!`.
Takes the current value of the variable and returns the outcome and the
log lines emitted. -/
def api_url (var : Option String) : ROut String × List (Level × String) :=
  match var with
  | some url => (.ok url, [])
  | none =>
    (.panic, [(.Error, "Error getting DEVCADE_API_URL: " ++ notPresentMsg)])

end env

/-- `pub struct DevcadeGame`: a game from the Devcade API.  All fields are
strings. -/
structure DevcadeGame where
  id : String
  author : String
  upload_date : String
  name : String
  hash : String
  description : String
  icon_link : String
  banner_link : String
deriving DecidableEq, Repr

/-- `impl Default for DevcadeGame`: every field empty except
`upload_date`, which is the Unix epoch in ISO-8601 form. -/
def DevcadeGame.default : DevcadeGame :=
  { id := "", author := "", upload_date := "1970-01-01T00:00:00.000Z",
    name := "", hash := "", description := "", icon_link := "",
    banner_link := "" }

/-- The wire field names produced by serde's derive with
`rename_all = "camelCase"`, in declaration order. -/
def wireFields : List String :=
  ["id", "author", "uploadDate", "name", "hash", "description",
   "iconLink", "bannerLink"]

/-- Serialization of a `DevcadeGame` as derived by
`#[derive(Serialize)]` with `rename_all = "camelCase"`: the key-value
pairs of the wire object, keys in camelCase, in declaration order. -/
def serializeGame (g : DevcadeGame) : List (String × String) :=
  [("id", g.id), ("author", g.author), ("uploadDate", g.upload_date),
   ("name", g.name), ("hash", g.hash), ("description", g.description),
   ("iconLink", g.icon_link), ("bannerLink", g.banner_link)]

/-- First value stored under a key in a wire object. -/
def lookupKV : List (String × String) → String → Option String
  | [], _ => none
  | (k, v) :: rest, key => if k = key then some v else lookupKV rest key

/-- Deserialization of a `DevcadeGame` as derived by
`#[derive(Deserialize)]` with `rename_all = "camelCase"`: each field is
taken from its camelCase key wherever it occurs in the object, so field
order is insignificant; any missing field is an error. -/
def deserializeGame (kvs : List (String × String)) : Option DevcadeGame :=
  match lookupKV kvs "id", lookupKV kvs "author", lookupKV kvs "uploadDate",
        lookupKV kvs "name", lookupKV kvs "hash", lookupKV kvs "description",
        lookupKV kvs "iconLink", lookupKV kvs "bannerLink" with
  | some i, some a, some u, some n, some h, some d, some ic, some b =>
    some ⟨i, a, u, n, h, d, ic, b⟩
  | _, _, _, _, _, _, _, _ => none

/-!
Kernel-side FIFO semantics, modelling the POSIX behaviour the read-write
open works around: a FIFO reader observes end-of-stream exactly when the
pipe has no writer left and its buffer is drained, and a descriptor opened
in read-write mode counts as a writer.
-/

/-- State of one open named pipe: buffered bytes, the number of
descriptors opened read-write (each counts as a writer), and the number of
write-only descriptors. -/
structure PipeState where
  buffer : List Nat
  rwDescs : Nat
  wDescs : Nat
deriving DecidableEq, Repr

/-- A freshly created pipe: empty, no descriptors. -/
def pipeInit : PipeState := ⟨[], 0, 0⟩

/-- How many writers the kernel counts on the pipe. -/
def writerCount (s : PipeState) : Nat := s.rwDescs + s.wDescs

/-- A read on the pipe reports end-of-stream exactly when no writer is
left and the buffer is drained. -/
def atEof (s : PipeState) : Bool := writerCount s = 0 && s.buffer.isEmpty

/-- Attaching a receiver to the pipe: a read-write receiver adds a
read-write descriptor; a plain read-only receiver adds none. -/
def attachReceiver (r : Receiver) (s : PipeState) : PipeState :=
  if r.readWrite then { s with rwDescs := s.rwDescs + 1 } else s

/-- Actions of writer processes on the pipe: connect, disconnect, or
write bytes. -/
inductive WOp where
  | wopen
  | wclose
  | wwrite (bs : List Nat)
deriving DecidableEq, Repr

/-- Effect of one writer action on the pipe state. -/
def applyWOp (s : PipeState) : WOp → PipeState
  | .wopen => { s with wDescs := s.wDescs + 1 }
  | .wclose => { s with wDescs := s.wDescs - 1 }
  | .wwrite bs => { s with buffer := s.buffer ++ bs }

/-- Effect of a sequence of writer actions. -/
def applyWOps (s : PipeState) (ops : List WOp) : PipeState :=
  ops.foldl applyWOp s

/-- Draining read: the reader takes the whole buffer. -/
def readAll (s : PipeState) : List Nat × PipeState :=
  (s.buffer, { s with buffer := [] })

/-! Helper lemmas about the filesystem model. -/

theorem lookupFs_insert_self (fs : Fs) (p : String) (e : FsEntry) :
    lookupFs (insertFs fs p e) p = some e := by
  simp [insertFs, lookupFs]

theorem existsFs_insert_of (fs : Fs) (p q : String) (e : FsEntry)
    (h : existsFs fs q = true) : existsFs (insertFs fs p e) q = true := by
  simp only [existsFs, insertFs, lookupFs] at h ⊢
  by_cases hpq : p = q
  · simp [hpq]
  · simpa [hpq] using h

theorem existsFs_insert_self (fs : Fs) (p : String) (e : FsEntry) :
    existsFs (insertFs fs p e) p = true := by
  simp [existsFs, insertFs, lookupFs]

theorem ensureDirs_preserves (l : List String) (fs : Fs) (q : String)
    (h : existsFs fs q = true) : existsFs (ensureDirs fs l) q = true := by
  induction l generalizing fs with
  | nil => exact h
  | cons a rest ih =>
    by_cases hex : existsFs fs a = true
    · simpa [ensureDirs, hex] using ih fs h
    · simp only [ensureDirs, hex, if_false]
      exact ih _ (existsFs_insert_of fs a q .dir h)

theorem ensureDirs_mem (l : List String) (fs : Fs) (q : String) (h : q ∈ l) :
    existsFs (ensureDirs fs l) q = true := by
  induction l generalizing fs with
  | nil => cases h
  | cons a rest ih =>
    rcases List.mem_cons.mp h with rfl | h2
    · by_cases hex : existsFs fs q = true
      · simpa [ensureDirs, hex] using ensureDirs_preserves rest fs q hex
      · simp only [ensureDirs, hex, if_false]
        exact ensureDirs_preserves rest _ q (existsFs_insert_self fs q .dir)
    · by_cases hex : existsFs fs a = true
      · simpa [ensureDirs, hex] using ih _ h2
      · simp only [ensureDirs, hex, if_false]
        exact ih _ h2

theorem existsFs_false_lookup (fs : Fs) (p : String) (h : existsFs fs p = false) :
    lookupFs fs p = none := by
  simp only [existsFs, Bool.or_eq_false_iff] at h
  exact Option.not_isSome_iff_eq_none.mp (by simp [h.2])

theorem countFifoAt_lookup_none (fs : Fs) (p : String)
    (h : lookupFs fs p = none) : countFifoAt fs p = 0 := by
  induction fs with
  | nil => rfl
  | cons qe rest ih =>
    obtain ⟨q, e⟩ := qe
    simp only [lookupFs] at h
    by_cases hqp : q = p
    · simp [hqp] at h
    · simp only [hqp, if_false] at h
      simpa [countFifoAt, List.filter, hqp] using ih h

theorem countFifoAt_insert_fifo (fs : Fs) (p : String) (m : Nat) :
    countFifoAt (insertFs fs p (.fifo m)) p = countFifoAt fs p + 1 := by
  simp [countFifoAt, insertFs, List.filter, isFifo]

theorem countFifoAt_insert_dir (fs : Fs) (p q : String) :
    countFifoAt (insertFs fs q .dir) p = countFifoAt fs p := by
  simp [countFifoAt, insertFs, List.filter, isFifo]

theorem countFifoAt_ensureDirs (l : List String) (fs : Fs) (p : String) :
    countFifoAt (ensureDirs fs l) p = countFifoAt fs p := by
  induction l generalizing fs with
  | nil => rfl
  | cons a rest ih =>
    by_cases hex : existsFs fs a = true
    · simp [ensureDirs, hex, ih]
    · simp only [ensureDirs, hex, if_false]
      rw [ih]
      exact countFifoAt_insert_dir fs p a

theorem countFifoAt_create_dir_all (fs : Fs) (d p : String) :
    countFifoAt (create_dir_all fs d) p = countFifoAt fs p := by
  simp [create_dir_all, countFifoAt_ensureDirs]

/-! Helper lemmas about the branches of `mkfifo`. -/

theorem mkfifo_spec_ok (os : OsOracle) (fs : Fs) (path par : String)
    (h0 : existsFs fs path = false) (h1 : rustParent path = some par)
    (h2 : hasNul path = false) (h3 : os.mkdirFails = false)
    (h4 : os.mkfifoCode = 0) :
    mkfifo os fs path =
      (.ok (), insertFs (if existsFs fs par then fs else create_dir_all fs par)
                 path (.fifo 0o644)) := by
  by_cases hpar : existsFs fs par = true
  · simp [mkfifo, h0, h1, hpar, mkfifoSyscall, h2, h4]
  · simp [mkfifo, h0, h1, hpar, h3, mkfifoSyscall, h2, h4]

theorem mkfifo_spec_err (os : OsOracle) (fs : Fs) (path par : String)
    (h0 : existsFs fs path = false) (h1 : rustParent path = some par)
    (h2 : hasNul path = false) (h3 : os.mkdirFails = false)
    (h4 : ¬ os.mkfifoCode = 0) :
    (mkfifo os fs path).1 =
      .err ("mkfifo exited with code " ++ toString os.mkfifoCode) := by
  by_cases hpar : existsFs fs par = true
  · simp [mkfifo, h0, h1, hpar, mkfifoSyscall, h2, h4]
  · simp [mkfifo, h0, h1, hpar, h3, mkfifoSyscall, h2, h4]

theorem mkfifo_exists_ok (os : OsOracle) (fs : Fs) (path : String)
    (h : existsFs fs path = true) : mkfifo os fs path = (.ok (), fs) := by
  simp [mkfifo, h]

/-! Helper lemmas about the pipe-state model. -/

theorem applyWOps_rwDescs (ops : List WOp) (s : PipeState) :
    (applyWOps s ops).rwDescs = s.rwDescs := by
  induction ops generalizing s with
  | nil => rfl
  | cons op rest ih =>
    cases op <;> simp [applyWOps, List.foldl, applyWOp] at * <;> exact ih _

theorem open_read_pipe_ok_receiver (os : OsOracle) (fs : Fs) (path : String)
    (r : Receiver) (fs1 : Fs)
    (h : open_read_pipe os fs path = (.ok r, fs1)) : r = ⟨path, true⟩ := by
  simp only [open_read_pipe, OpenOptions.open_receiver, OpenOptions.read_write,
    OpenOptions.new] at h
  by_cases hex : existsFs fs path = true
  · simp only [hex, if_true] at h
    by_cases hop : os.openReceiverFails = true <;> simp [hop] at h
    exact h.1.symm
  · rw [Bool.not_eq_true] at hex
    simp only [hex, Bool.false_eq_true, if_false] at h
    cases hmk : mkfifo os fs path with
    | mk ro fsm =>
      rw [hmk] at h
      cases ro with
      | ok a =>
        simp only at h
        by_cases hop : os.openReceiverFails = true <;> simp [hop] at h
        exact h.1.symm
      | err m => simp at h
      | panic => simp at h

/-! The claims. -/

/-- C3: at a path where an entry already exists — whatever its kind —
`mkfifo` succeeds immediately without mutating the filesystem; and on a
nonexistent path two successive calls both succeed and leave exactly one
FIFO special file at the path. -/
theorem mkfifo_exists_noop_idempotent :
    (∀ os fs path e, lookupFs fs path = some e → mkfifo os fs path = (.ok (), fs)) ∧
    (∀ os2 fs path par, existsFs fs path = false → rustParent path = some par →
      hasNul path = false →
      (mkfifo osOk fs path).1 = .ok () ∧
      mkfifo os2 (mkfifo osOk fs path).2 path = (.ok (), (mkfifo osOk fs path).2) ∧
      countFifoAt (mkfifo osOk fs path).2 path = 1) := by
  constructor
  · intro os fs path e h
    exact mkfifo_exists_ok os fs path (by simp [existsFs, h])
  · intro os2 fs path par h0 h1 h2
    have hspec := mkfifo_spec_ok osOk fs path par h0 h1 h2 rfl rfl
    rw [hspec]
    refine ⟨rfl, ?_, ?_⟩
    · exact mkfifo_exists_ok os2 _ path (existsFs_insert_self _ path _)
    · have hnone := existsFs_false_lookup fs path h0
      by_cases hpar : existsFs fs par = true
      · rw [if_pos hpar, countFifoAt_insert_fifo,
            countFifoAt_lookup_none fs path hnone]
      · rw [if_neg hpar, countFifoAt_insert_fifo, countFifoAt_create_dir_all,
            countFifoAt_lookup_none fs path hnone]

/-- Witness for C3, at a regular file (`mkfifo` does not check the kind)
and at a fresh path. -/
theorem mkfifo_exists_noop_idempotent_w :
    mkfifo osOk [("/tmp/f", FsEntry.file)] "/tmp/f" =
      (.ok (), [("/tmp/f", FsEntry.file)]) ∧
    countFifoAt (mkfifo osOk [] "/tmp/fifo1").2 "/tmp/fifo1" = 1 :=
  ⟨mkfifo_exists_noop_idempotent.1 osOk _ "/tmp/f" .file (by decide),
   (mkfifo_exists_noop_idempotent.2 osOk [] "/tmp/fifo1" "/tmp"
     (by decide) (by decide) (by decide)).2.2⟩

/-- C4 counterexample: when the `libc::mkfifo` call fails with code 17 and
a racing process has left a FIFO at the path, `mkfifo` propagates the
error even though an entry now exists at the path — there is no re-check
treating this as success. -/
theorem mkfifo_race_cex :
    (mkfifo osRace [] "/tmp/pipe0").1 = .err "mkfifo exited with code 17" ∧
    existsFs (mkfifo osRace [] "/tmp/pipe0").2 "/tmp/pipe0" = true := by
  decide

/-- C4 (amended): `mkfifo` does not re-check existence after a failed
creation call; whenever the OS call returns a non-zero status it
propagates an error carrying that status, even when a racing process has
made an entry appear at the path. -/
theorem mkfifo_no_recheck (os : OsOracle) (fs : Fs) (path par : String)
    (h0 : existsFs fs path = false) (h1 : rustParent path = some par)
    (h2 : hasNul path = false) (h3 : os.mkdirFails = false)
    (h4 : ¬ os.mkfifoCode = 0) :
    (mkfifo os fs path).1 =
      .err ("mkfifo exited with code " ++ toString os.mkfifoCode) ∧
    (∀ e, os.raceEntry = some e → existsFs (mkfifo os fs path).2 path = true) := by
  refine ⟨mkfifo_spec_err os fs path par h0 h1 h2 h3 h4, ?_⟩
  intro e he
  by_cases hpar : existsFs fs par = true
  · simp [mkfifo, h0, h1, hpar, mkfifoSyscall, h2, h4, he, existsFs_insert_self]
  · simp [mkfifo, h0, h1, hpar, h3, mkfifoSyscall, h2, h4, he, existsFs_insert_self]

/-- Witness for C4's amended theorem, on the racing oracle. -/
theorem mkfifo_no_recheck_w :
    (mkfifo osRace [] "/tmp/pipe1").1 = .err "mkfifo exited with code 17" ∧
    existsFs (mkfifo osRace [] "/tmp/pipe1").2 "/tmp/pipe1" = true := by
  have h := mkfifo_no_recheck osRace [] "/tmp/pipe1" "/tmp"
    (by decide) (by decide) (by decide) (by decide) (by decide)
  exact ⟨h.1.trans (by decide), h.2 (.fifo 0o644) rfl⟩

/-- C6: when `DEVCADE_API_URL` is absent, `api_url` logs an error and
panics — in particular it never returns a string, empty or otherwise;
when the variable is set it returns its value. -/
theorem api_url_spec :
    (env.api_url none).1 = .panic ∧
    (env.api_url none).2 =
      [(Level.Error, "Error getting DEVCADE_API_URL: " ++ notPresentMsg)] ∧
    (∀ u, (env.api_url none).1 ≠ ROut.ok u) ∧
    (∀ v, env.api_url (some v) = (.ok v, [])) := by
  refine ⟨rfl, rfl, ?_, fun _ => rfl⟩
  intro u h
  simp [env.api_url] at h

/-- C7: when `DEVCADE_PATH` is absent, `devcade_path` logs a warning and
returns the fallback `/tmp/devcade` (also storing it back into the
environment) rather than failing; when the variable is set it returns the
configured value. -/
theorem devcade_path_spec :
    (env.devcade_path none).1 = "/tmp/devcade" ∧
    (env.devcade_path none).2.1 = some "/tmp/devcade" ∧
    (env.devcade_path none).2.2 =
      [(Level.Warn,
        "Error getting DEVCADE_PATH falling back to '/tmp/devcade': "
          ++ notPresentMsg)] ∧
    (∀ v, env.devcade_path (some v) = (v, some v, [])) :=
  ⟨rfl, rfl, rfl, fun _ => rfl⟩

/-- C8: the default `DevcadeGame` has every string field empty except the
upload timestamp, which is the epoch in ISO-8601 form. -/
theorem default_game_fields :
    DevcadeGame.default.id = "" ∧ DevcadeGame.default.author = "" ∧
    DevcadeGame.default.name = "" ∧ DevcadeGame.default.hash = "" ∧
    DevcadeGame.default.description = "" ∧
    DevcadeGame.default.icon_link = "" ∧
    DevcadeGame.default.banner_link = "" ∧
    DevcadeGame.default.upload_date = "1970-01-01T00:00:00.000Z" :=
  ⟨rfl, rfl, rfl, rfl, rfl, rfl, rfl, rfl⟩

/-- C10: on the empty path — a path with no parent component — at which
no entry exists, `mkfifo` (and hence `open_read_pipe` and
`open_write_pipe`) panics at the parent-directory lookup instead of
returning an error value, whatever the OS does. -/
theorem mkfifo_empty_path_panics :
    rustParent "" = none ∧
    ∀ os : OsOracle,
      mkfifo os [] "" = (.panic, []) ∧
      open_read_pipe os [] "" = (.panic, []) ∧
      open_write_pipe os [] "" = (.panic, []) := by
  refine ⟨rfl, fun os => ⟨?_, ?_, ?_⟩⟩ <;> rfl

/-- C1 counterexample: when FIFO creation fails (`libc::mkfifo` returning
code 1), `open_read_pipe` and `open_write_pipe` panic — the construction
failure is not returned to the caller as an error value. -/
theorem open_pipe_construction_cex :
    (mkfifo osFail [] "/tmp/pipe2").1 = .err "mkfifo exited with code 1" ∧
    (open_read_pipe osFail [] "/tmp/pipe2").1 = .panic ∧
    (open_write_pipe osFail [] "/tmp/pipe2").1 = .panic := by
  decide

/-- C1 (amended): a pipe-construction (FIFO-creation) failure makes
`open_read_pipe` and `open_write_pipe` terminate the process by panic
after logging; only a failure of the underlying open call is returned to
the caller as a recoverable error. -/
theorem open_pipe_error_policy :
    (∀ os fs path m fs1, existsFs fs path = false →
      mkfifo os fs path = (.err m, fs1) →
      open_read_pipe os fs path = (.panic, fs1) ∧
      open_write_pipe os fs path = (.panic, fs1)) ∧
    (∀ os fs path, existsFs fs path = true → os.openReceiverFails = true →
      open_read_pipe os fs path = (.err "open_receiver error", fs)) ∧
    (∀ os fs path, existsFs fs path = true → os.openSenderFails = true →
      open_write_pipe os fs path = (.err "open_sender error", fs)) := by
  refine ⟨?_, ?_, ?_⟩
  · intro os fs path m fs1 h0 h1
    constructor
    · simp [open_read_pipe, h0, h1]
    · simp [open_write_pipe, h0, h1]
  · intro os fs path h0 h1
    simp [open_read_pipe, h0, OpenOptions.open_receiver, h1]
  · intro os fs path h0 h1
    simp [open_write_pipe, h0, OpenOptions.open_sender, h1]

/-- Witness for C1's amended theorem: a failed creation panics; a failed
open on an existing FIFO is returned as an error. -/
theorem open_pipe_error_policy_w :
    open_read_pipe osFail [] "/tmp/pipe2" = (.panic, [("/tmp", FsEntry.dir)]) ∧
    open_read_pipe { osOk with openReceiverFails := true }
      [("/tmp/pipe2", FsEntry.fifo 0o644)] "/tmp/pipe2" =
      (.err "open_receiver error", [("/tmp/pipe2", FsEntry.fifo 0o644)]) := by
  constructor
  · exact (open_pipe_error_policy.1 osFail [] "/tmp/pipe2"
      "mkfifo exited with code 1" [("/tmp", FsEntry.dir)]
      (by decide) (by decide)).1
  · exact open_pipe_error_policy.2.1 { osOk with openReceiverFails := true }
      [("/tmp/pipe2", FsEntry.fifo 0o644)] "/tmp/pipe2" (by decide) (by decide)

/-- C2: a successful `open_read_pipe` yields a receiver opened in
read-write mode — the reader holds a latent write capability on its own
descriptor — so with that descriptor attached the kernel never counts
zero writers: the endpoint never observes end-of-stream whatever the
writers do, and a writer connecting after any history of writer
connects and disconnects still delivers its bytes to the same open
reader. -/
theorem open_read_pipe_read_write_durable (os : OsOracle) (fs : Fs)
    (path : String) (r : Receiver) (fs1 : Fs) (ops : List WOp) (bs : List Nat)
    (h : open_read_pipe os fs path = (.ok r, fs1)) :
    r.readWrite = true ∧
    atEof (applyWOps (attachReceiver r pipeInit) ops) = false ∧
    bs <:+ (readAll (applyWOp
      (applyWOp (applyWOps (attachReceiver r pipeInit) ops) .wopen)
      (.wwrite bs))).1 := by
  have hr : r = ⟨path, true⟩ := open_read_pipe_ok_receiver os fs path r fs1 h
  subst hr
  refine ⟨rfl, ?_, ?_⟩
  · have hrw : (applyWOps (attachReceiver ⟨path, true⟩ pipeInit) ops).rwDescs = 1 := by
      rw [applyWOps_rwDescs]
      rfl
    simp [atEof, writerCount, hrw]
  · simp only [readAll, applyWOp]
    exact List.suffix_append _ _

/-- Witness for C2, on a concrete successful open and a writer that
connects, disconnects, and is replaced by a fresh writer. -/
theorem open_read_pipe_read_write_durable_w :
    (⟨"/tmp/game", true⟩ : Receiver).readWrite = true ∧
    atEof (applyWOps (attachReceiver ⟨"/tmp/game", true⟩ pipeInit)
      [.wopen, .wclose]) = false ∧
    [7] <:+ (readAll (applyWOp
      (applyWOp (applyWOps (attachReceiver ⟨"/tmp/game", true⟩ pipeInit)
        [.wopen, .wclose]) .wopen) (.wwrite [7]))).1 :=
  open_read_pipe_read_write_durable osOk [] "/tmp/game" ⟨"/tmp/game", true⟩
    [("/tmp/game", .fifo 0o644), ("/tmp", .dir)] [.wopen, .wclose] [7]
    (by decide)

/-- C5 counterexample: the empty path has no filesystem entry, yet
`mkfifo` panics at the parent lookup — it neither creates a FIFO nor
returns an error carrying a status code. -/
theorem mkfifo_no_parent_cex :
    existsFs [] "" = false ∧ mkfifo osOk [] "" = (.panic, []) := by
  decide

/-- C5 (amended): for every NUL-free path that has a parent component and
at which no entry exists, `mkfifo` ensures the parent directory tree
(creating it recursively when the parent is absent) and creates a FIFO at
the path with mode `0o644`; when the OS creation call returns a non-zero
status it fails with an error carrying that status code. -/
theorem mkfifo_creates_tree_and_fifo (os : OsOracle) (fs : Fs)
    (path par : String) (h0 : existsFs fs path = false)
    (h1 : rustParent path = some par) (h2 : hasNul path = false)
    (h3 : os.mkdirFails = false) :
    (os.mkfifoCode = 0 →
      (mkfifo os fs path).1 = .ok () ∧
      lookupFs (mkfifo os fs path).2 path = some (.fifo 0o644) ∧
      (existsFs fs par = false →
        ∀ a ∈ dirChain par, existsFs (mkfifo os fs path).2 a = true)) ∧
    (¬ os.mkfifoCode = 0 →
      (mkfifo os fs path).1 =
        .err ("mkfifo exited with code " ++ toString os.mkfifoCode)) := by
  constructor
  · intro h4
    rw [mkfifo_spec_ok os fs path par h0 h1 h2 h3 h4]
    refine ⟨rfl, lookupFs_insert_self _ _ _, ?_⟩
    intro hpar a ha
    rw [if_neg (by simp [hpar])]
    refine existsFs_insert_of _ _ _ _ ?_
    simpa [create_dir_all] using ensureDirs_mem (dirChain par) fs a ha
  · exact mkfifo_spec_err os fs path par h0 h1 h2 h3

/-- Witness for C5's amended theorem: a success instance creating
`/tmp/devcade/pipe3` with its directory tree, and a failure instance
carrying the status code. -/
theorem mkfifo_creates_tree_and_fifo_w :
    lookupFs (mkfifo osOk [] "/tmp/devcade/pipe3").2 "/tmp/devcade/pipe3" =
      some (.fifo 0o644) ∧
    existsFs (mkfifo osOk [] "/tmp/devcade/pipe3").2 "/tmp/devcade" = true ∧
    (mkfifo osFail [] "/tmp/devcade/pipe3").1 =
      .err "mkfifo exited with code 1" := by
  have hok := (mkfifo_creates_tree_and_fifo osOk [] "/tmp/devcade/pipe3"
    "/tmp/devcade" (by decide) (by decide) (by decide) (by decide)).1 rfl
  have herr := (mkfifo_creates_tree_and_fifo osFail [] "/tmp/devcade/pipe3"
    "/tmp/devcade" (by decide) (by decide) (by decide) (by decide)).2
    (by decide)
  exact ⟨hok.2.1, hok.2.2 (by decide) "/tmp/devcade" (by decide),
    herr.trans (by decide)⟩

/-- C9: serializing a `DevcadeGame` and deserializing the result yields
the game back; the wire keys are exactly the camelCase names `id, author,
uploadDate, name, hash, description, iconLink, bannerLink`; and
deserialization reads each field by key, so any wire object assigning the
same values to those keys — in whatever order — deserializes to the same
game. -/
theorem game_roundtrip_camelCase (g : DevcadeGame)
    (kvs : List (String × String))
    (h : ∀ k ∈ wireFields, lookupKV kvs k = lookupKV (serializeGame g) k) :
    deserializeGame (serializeGame g) = some g ∧
    (serializeGame g).map Prod.fst = wireFields ∧
    deserializeGame kvs = some g := by
  refine ⟨by rfl, by rfl, ?_⟩
  have h1 : lookupKV kvs "id" = some g.id := by
    rw [h "id" (by simp [wireFields])]; rfl
  have h2 : lookupKV kvs "author" = some g.author := by
    rw [h "author" (by simp [wireFields])]; rfl
  have h3 : lookupKV kvs "uploadDate" = some g.upload_date := by
    rw [h "uploadDate" (by simp [wireFields])]; rfl
  have h4 : lookupKV kvs "name" = some g.name := by
    rw [h "name" (by simp [wireFields])]; rfl
  have h5 : lookupKV kvs "hash" = some g.hash := by
    rw [h "hash" (by simp [wireFields])]; rfl
  have h6 : lookupKV kvs "description" = some g.description := by
    rw [h "description" (by simp [wireFields])]; rfl
  have h7 : lookupKV kvs "iconLink" = some g.icon_link := by
    rw [h "iconLink" (by simp [wireFields])]; rfl
  have h8 : lookupKV kvs "bannerLink" = some g.banner_link := by
    rw [h "bannerLink" (by simp [wireFields])]; rfl
  simp [deserializeGame, h1, h2, h3, h4, h5, h6, h7, h8]

/-- Witness for C9: the default game round-trips, also through the
reversed — hence reordered — wire object. -/
theorem game_roundtrip_camelCase_w :
    deserializeGame (serializeGame DevcadeGame.default) =
      some DevcadeGame.default ∧
    deserializeGame (serializeGame DevcadeGame.default).reverse =
      some DevcadeGame.default := by
  have h := game_roundtrip_camelCase DevcadeGame.default
    (serializeGame DevcadeGame.default).reverse (by decide)
  exact ⟨h.1, h.2.2⟩

end Devcade
